import Mathlib

/-!
Verification development for the `cloudflare-bulk-delete` tool.

The definitions below are a shallow embedding of the protected bulk-deletion
engine of the repository:

* `PagesClient.bulkDeleteDeployments`   (src/src/lib/pages-client.js, lines 233-340)
* `WorkersClient.bulkDeleteDeployments` (src/src/lib/workers-client.js, lines 261-326)
* `WorkersClient.deleteDeployment`      (src/src/lib/workers-client.js, lines 191-219)
* `ProgressLogger`                      (src/src/utils/logger.js, lines 80-137)

Remote calls (`deleteDeployment` for one item) are modelled by an oracle
`ok : Deployment → Bool` telling for each deployment whether its remote
deletion succeeds (an exception thrown by the HTTP layer counts as failure).
JavaScript arrays become `List`, JavaScript objects with optional fields
become structures with `Option` fields, and the wall clock is an explicit
parameter.
-/

namespace CFBD

/-- A deployment-like item as consumed by both bulk-delete loops: its `id`,
its creation timestamp `created_on` (modelled as the integer value that
`new Date(...)` / `dayjs(...).valueOf()` yields), and its optional
`environment` string. -/
structure Deployment where
  id : Nat
  created_on : Int
  environment : Option String
deriving DecidableEq, Repr

/-- Options object of `PagesClient.bulkDeleteDeployments`
(pages-client.js line 234): `{ skipProduction = true, dryRun = false,
keepLatest = 1, force = true }`.  `keepLatest` is a JavaScript number and may
be negative, hence `Int`.  `force` is forwarded to the per-item delete call
and does not influence the accounting, so it is omitted here. -/
structure PagesOptions where
  skipProduction : Bool := true
  dryRun : Bool := false
  keepLatest : Int := 1
deriving DecidableEq, Repr

/-- Options object of `WorkersClient.bulkDeleteDeployments`
(workers-client.js line 262): `{ skipLatest = true, dryRun = false }`. -/
structure WorkersOptions where
  skipLatest : Bool := true
  dryRun : Bool := false
deriving DecidableEq, Repr

/-- The plain object returned by both bulk-delete functions.  The early
returns (`{ success: 0, failed: 0, skipped: 0 }`, the dry-run return and the
nothing-to-delete return) carry no `total` and no `dryRun` field; an absent
field is `none` / `false`.  The wall-clock fields `duration` and `rate` of
the final return come from `ProgressLogger` and are modelled separately by
`progressRate`. -/
structure BulkResult where
  success : Nat
  failed : Nat
  skipped : Nat
  total : Option Nat := none
  dryRun : Bool := false
deriving DecidableEq, Repr

/-- One call of a bulk-delete function: the returned `result`, the list
`calls` of deployments on which the per-item `deleteDeployment` was invoked
(in invocation order), and `inputAfter`, the contents of the caller's
`deployments` array after the call returns.  Both functions sort a shallow
copy `[...deployments]` (pages-client.js line 242, workers-client.js
line 275) and never write to the input array, which the embedding makes
explicit by setting `inputAfter` on every return path. -/
structure BulkRun where
  result : BulkResult
  calls : List Deployment
  inputAfter : List Deployment
deriving DecidableEq, Repr

/-- Insert a deployment into a list that is already sorted newest-first,
placing it after earlier items whose `created_on` is at least as large. -/
def insertByNewest (d : Deployment) : List Deployment → List Deployment
  | [] => [d]
  | x :: xs => if d.created_on ≤ x.created_on then x :: insertByNewest d xs else d :: x :: xs

/-- The newest-first sort of both clients: a stable sort by descending
`created_on`, the result of `[...deployments].sort((a, b) => dateB - dateA)`
(pages-client.js lines 242-244) and of the equivalent `dayjs().valueOf()`
comparator (workers-client.js lines 275-277).  `Array.prototype.sort` is
stable, and a stable insertion sort produces the same list. -/
def sortNewestFirst (l : List Deployment) : List Deployment :=
  l.foldl (fun acc d => insertByNewest d acc) []

/-- The filtering block of `PagesClient.bulkDeleteDeployments`
(pages-client.js lines 246-282), applied to the already sorted list: returns
`(deploymentsToDelete, skippedCount)`.

* `skipProduction && keepLatest > 0`: the indexed filter of lines 256-266
  drops every item whose index is `< keepLatest` and counts it as skipped.
* `skipProduction && !(keepLatest > 0)`: the filter of lines 269-280 drops
  every item whose `environment === 'production'` and counts it as skipped.
* `!skipProduction`: no filtering at all, `skippedCount` stays `0`. -/
def pagesDecision (sorted : List Deployment) (skipProduction : Bool) (keepLatest : Int) :
    List Deployment × Nat :=
  if skipProduction then
    if keepLatest > 0 then
      (((sorted.enum.filter (fun p => !(decide ((p.1 : Int) < keepLatest)))).map Prod.snd),
        (sorted.enum.filter (fun p => decide ((p.1 : Int) < keepLatest))).length)
    else
      ((sorted.filter (fun d => !(decide (d.environment = some "production")))),
        (sorted.filter (fun d => decide (d.environment = some "production"))).length)
  else
    (sorted, 0)

/-- `PagesClient.bulkDeleteDeployments` (pages-client.js lines 233-340).
The oracle `ok` tells whether the per-item `deleteDeployment` call succeeds.

* empty input (line 236): return `{success: 0, failed: 0, skipped: 0}`;
* sort a copy, run the filtering block (`pagesDecision`);
* dry run (line 293): return `{success: 0, failed: 0, skipped, dryRun: true}`
  without invoking `deleteDeployment`;
* nothing left to delete (line 305): return
  `{success: 0, failed: 0, skipped}`;
* otherwise loop over `deploymentsToDelete`, awaiting each deletion and
  counting successes and caught failures (lines 319-328), and return
  `{success, failed, skipped, total: deployments.length, ...}`. -/
def pagesBulkDeleteDeployments (deployments : List Deployment) (opts : PagesOptions)
    (ok : Deployment → Bool) : BulkRun :=
  if deployments.length = 0 then
    ⟨⟨0, 0, 0, none, false⟩, [], deployments⟩
  else
    let sorted := sortNewestFirst deployments
    let dec := pagesDecision sorted opts.skipProduction opts.keepLatest
    if opts.dryRun then
      ⟨⟨0, 0, dec.2, none, true⟩, [], deployments⟩
    else if dec.1.length = 0 then
      ⟨⟨0, 0, dec.2, none, false⟩, [], deployments⟩
    else
      ⟨⟨(dec.1.filter ok).length, (dec.1.filter (fun d => !(ok d))).length, dec.2,
          some deployments.length, false⟩,
        dec.1, deployments⟩

/-- The filtering block of `WorkersClient.bulkDeleteDeployments`
(workers-client.js lines 269-283): when `skipLatest` and the list is
non-empty, sort a copy newest-first and drop the first element
(`sorted.slice(1)`), counting one skipped item; otherwise delete everything
and skip nothing. -/
def workersDecision (deployments : List Deployment) (skipLatest : Bool) :
    List Deployment × Nat :=
  if skipLatest && decide (0 < deployments.length) then
    ((sortNewestFirst deployments).drop 1, 1)
  else
    (deployments, 0)

/-- `WorkersClient.bulkDeleteDeployments` (workers-client.js lines 261-326).
Same shape as the Pages variant, but with the `skipLatest` filtering block
and without a nothing-to-delete early return: an empty delete set just runs
the loop zero times and still returns `total: deployments.length`. -/
def workersBulkDeleteDeployments (deployments : List Deployment) (opts : WorkersOptions)
    (ok : Deployment → Bool) : BulkRun :=
  if deployments.length = 0 then
    ⟨⟨0, 0, 0, none, false⟩, [], deployments⟩
  else
    let dec := workersDecision deployments opts.skipLatest
    if opts.dryRun then
      ⟨⟨0, 0, dec.2, none, true⟩, [], deployments⟩
    else
      ⟨⟨(dec.1.filter ok).length, (dec.1.filter (fun d => !(ok d))).length, dec.2,
          some deployments.length, false⟩,
        dec.1, deployments⟩

/-- Events of one execution of the bulk-delete loop: submitting the remote
deletion of the deployment with the given id, and observing its completion
(success or caught failure). -/
inductive ExecEvent where
  | submit (id : Nat)
  | complete (id : Nat)
deriving DecidableEq, Repr

/-- The event trace of the bulk-delete loops
(pages-client.js lines 319-328, workers-client.js lines 305-314):
`for (const deployment of deploymentsToDelete) { await this.deleteDeployment(...) }`.
Each iteration submits one deletion and awaits its completion before the
next iteration starts, so the trace is
`submit d₁, complete d₁, submit d₂, complete d₂, ...`. -/
def execTrace : List Deployment → List ExecEvent
  | [] => []
  | d :: rest => ExecEvent.submit d.id :: ExecEvent.complete d.id :: execTrace rest

/-- Number of submission events in a trace fragment. -/
def countSubmits : List ExecEvent → Nat
  | [] => 0
  | ExecEvent.submit _ :: tr => countSubmits tr + 1
  | ExecEvent.complete _ :: tr => countSubmits tr

/-- Number of completion events in a trace fragment. -/
def countCompletes : List ExecEvent → Nat
  | [] => 0
  | ExecEvent.complete _ :: tr => countCompletes tr + 1
  | ExecEvent.submit _ :: tr => countCompletes tr

/-- `WorkersClient.deleteDeployment` (workers-client.js lines 191-219),
abstracted over the two remote calls it can make.  `primary` is the outcome
of `DELETE .../deployments/{id}` and `fallback` the outcome of
`DELETE .../versions/{id}`: `Except.error e` models the call throwing an
error (`e` its message/class), `Except.ok s` models a JSON response with
`success = s`.  Returned value: the call's own outcome (`Except.ok true` for
a successful deletion, `Except.error _` for a thrown error, including the
`'Failed to delete deployment'` error thrown on a non-success response),
paired with whether the versions fallback was invoked.  The code falls back
inside the `catch` of the first request (lines 197-207), i.e. whenever the
primary request throws, whatever the error. -/
def workersDeleteDeployment (primary fallback : Except String Bool) :
    Except String Bool × Bool :=
  match primary with
  | Except.ok s =>
      (if s then Except.ok true else Except.error "Failed to delete deployment", false)
  | Except.error _ =>
      match fallback with
      | Except.ok s =>
          (if s then Except.ok true else Except.error "Failed to delete deployment", true)
      | Except.error e => (Except.error e, true)

/-- The throughput reported by `ProgressLogger` (logger.js lines 103-105 and
114-116): `rate = this.current / (elapsed / 1000)`, items per second, where
`elapsed = Date.now() - this.startTime` is the wall-clock time in
milliseconds since the tracker was created.  JavaScript floating-point
numbers are modelled as exact rationals. -/
def progressRate (current elapsedMs : ℚ) : ℚ :=
  current / (elapsedMs / 1000)

/-- The ETA reported by `ProgressLogger.increment` (logger.js line 106):
`eta = this.current < this.total ? (this.total - this.current) / rate : 0`,
in seconds. -/
def progressEta (current total elapsedMs : ℚ) : ℚ :=
  if current < total then (total - current) / progressRate current elapsedMs else 0

/-- A preview deployment, used to instantiate the theorems on concrete
inputs. -/
def sampleA : Deployment := ⟨0, 5, some "preview"⟩

/-- A newer preview deployment. -/
def sampleB : Deployment := ⟨1, 9, some "preview"⟩

/-- A production deployment. -/
def sampleP : Deployment := ⟨2, 9, some "production"⟩

/-- The oracle of an execution in which every remote deletion succeeds. -/
def okAll : Deployment → Bool := fun _ => true

/-- The oracle of an execution in which only the deletion of the deployment
with id 0 succeeds. -/
def okOnly0 : Deployment → Bool := fun d => decide (d.id = 0)

/-! ### Helper lemmas -/

lemma length_insertByNewest (d : Deployment) (l : List Deployment) :
    (insertByNewest d l).length = l.length + 1 := by
  induction l with
  | nil => rfl
  | cons x xs ih =>
      simp only [insertByNewest]
      split <;> simp [ih]

lemma length_sortNewestFirst (l : List Deployment) :
    (sortNewestFirst l).length = l.length := by
  suffices h : ∀ acc : List Deployment,
      (l.foldl (fun acc d => insertByNewest d acc) acc).length = acc.length + l.length by
    simpa using h []
  induction l with
  | nil => intro acc; simp
  | cons x xs ih =>
      intro acc
      simp only [List.foldl_cons, ih, length_insertByNewest, List.length_cons]
      omega

lemma length_filter_add_length_filter_not {α : Type} (p : α → Bool) (l : List α) :
    (l.filter p).length + (l.filter fun a => !(p a)).length = l.length := by
  induction l with
  | nil => rfl
  | cons x xs ih =>
      by_cases h : p x = true <;> simp [List.filter_cons, h, ← ih] <;> omega

lemma enumFrom_filter_ge_map_snd {α : Type} (l : List α) :
    ∀ (n k : Nat),
      ((List.enumFrom n l).filter fun p => !(decide (p.1 < n + k))).map Prod.snd = l.drop k := by
  induction l with
  | nil => intro n k; simp
  | cons x xs ih =>
      intro n k
      cases k with
      | zero =>
          simp only [Nat.add_zero, List.enumFrom_cons, List.filter_cons]
          have hhead : (!(decide (n < n))) = true := by
            simp only [Bool.not_eq_true']
            exact decide_eq_false (by omega)
          rw [hhead]
          have hall : ((List.enumFrom (n + 1) xs).filter fun p => !(decide (p.1 < n)))
              = List.enumFrom (n + 1) xs := by
            refine List.filter_eq_self.mpr ?_
            intro a ha
            rcases a with ⟨i, y⟩
            have hi := (List.mem_enumFrom ha).1
            simp only [Bool.not_eq_true']
            exact decide_eq_false (by omega)
          simp [hall, List.enumFrom_map_snd]
      | succ k' =>
          have hstep : n + (k' + 1) = (n + 1) + k' := by omega
          simp only [List.enumFrom_cons, List.filter_cons, hstep]
          have hhead : (!(decide (n < n + 1 + k'))) = false := by
            simp only [Bool.not_eq_false']
            exact decide_eq_true (by omega)
          rw [hhead]
          simpa using ih (n + 1) k'

lemma enum_filter_ge_map_snd {α : Type} (l : List α) (k : Nat) :
    ((l.enum.filter fun p => !(decide (p.1 < k))).map Prod.snd) = l.drop k := by
  have h := enumFrom_filter_ge_map_snd l 0 k
  simpa [List.enum] using h

lemma pagesDecision_pred_congr (s : List Deployment) (kl : Int) (hkl : 0 ≤ kl) :
    ∀ q ∈ s.enum, (decide ((q.1 : Int) < kl)) = (decide (q.1 < kl.toNat)) := by
  intro q _
  apply decide_eq_decide.mpr
  omega

lemma pagesDecision_pos_eq (s : List Deployment) (kl : Int) (hkl : kl > 0) :
    pagesDecision s true kl =
      (((s.enum.filter (fun p => !(decide ((p.1 : Int) < kl)))).map Prod.snd),
        (s.enum.filter (fun p => decide ((p.1 : Int) < kl))).length) := by
  simp [pagesDecision, hkl]

lemma pagesDecision_nonpos_eq (s : List Deployment) (kl : Int) (hkl : ¬ kl > 0) :
    pagesDecision s true kl =
      ((s.filter (fun d => !(decide (d.environment = some "production")))),
        (s.filter (fun d => decide (d.environment = some "production"))).length) := by
  simp [pagesDecision, hkl]

lemma pagesDecision_noSkip_eq (s : List Deployment) (kl : Int) :
    pagesDecision s false kl = (s, 0) := by
  simp [pagesDecision]

/-- With `skipProduction` on and a positive `keepLatest`, the indexed filter
of pages-client.js lines 256-266 selects exactly the tail of the sorted list
after its first `keepLatest` elements. -/
lemma pagesDecision_fst_of_pos (s : List Deployment) (kl : Int) (hkl : 0 < kl) :
    (pagesDecision s true kl).1 = s.drop kl.toNat := by
  rw [pagesDecision_pos_eq s kl hkl]
  have hcongr : (s.enum.filter fun p => !(decide ((p.1 : Int) < kl)))
      = s.enum.filter fun p => !(decide (p.1 < kl.toNat)) := by
    refine List.filter_congr ?_
    intro q hq
    rw [pagesDecision_pred_congr s kl (le_of_lt hkl) q hq]
  simp only [hcongr]
  exact enum_filter_ge_map_snd s kl.toNat

/-- With `skipProduction` on and a positive `keepLatest`, the skipped count
of pages-client.js lines 256-266 is `min keepLatest (length of the list)`. -/
lemma pagesDecision_snd_of_pos (s : List Deployment) (kl : Int) (hkl : 0 < kl) :
    (pagesDecision s true kl).2 = min kl.toNat s.length := by
  rw [pagesDecision_pos_eq s kl hkl]
  have hcongr : (s.enum.filter fun p => decide ((p.1 : Int) < kl))
      = s.enum.filter fun p => decide (p.1 < kl.toNat) := by
    refine List.filter_congr ?_
    intro q hq
    exact pagesDecision_pred_congr s kl (le_of_lt hkl) q hq
  simp only [hcongr]
  have hpart := length_filter_add_length_filter_not
    (fun p : Nat × Deployment => decide (p.1 < kl.toNat)) s.enum
  have hkept : ((s.enum.filter fun p : Nat × Deployment => !(decide (p.1 < kl.toNat))).length)
      = (s.drop kl.toNat).length := by
    rw [← enum_filter_ge_map_snd s kl.toNat, List.length_map]
  have hlen : s.enum.length = s.length := List.enum_length
  rw [hkept, List.length_drop] at hpart
  omega

/-- The two components of the Pages filtering block always partition the
sorted list: kept items plus skipped items account for every input item. -/
lemma pagesDecision_sum (s : List Deployment) (sp : Bool) (kl : Int) :
    (pagesDecision s sp kl).1.length + (pagesDecision s sp kl).2 = s.length := by
  rcases sp with _ | _
  · simp [pagesDecision_noSkip_eq]
  · by_cases hkl : kl > 0
    · rw [pagesDecision_fst_of_pos s kl hkl, pagesDecision_snd_of_pos s kl hkl,
        List.length_drop]
      omega
    · rw [pagesDecision_nonpos_eq s kl hkl]
      have := length_filter_add_length_filter_not
        (fun d : Deployment => decide (d.environment = some "production")) s
      simp only [Prod.fst, Prod.snd]
      omega

lemma workersDecision_skip_eq (l : List Deployment) (h : 0 < l.length) :
    workersDecision l true = ((sortNewestFirst l).drop 1, 1) := by
  simp [workersDecision, h]

/-- The Workers filtering block also partitions the input list. -/
lemma workersDecision_sum (l : List Deployment) (sl : Bool) :
    (workersDecision l sl).1.length + (workersDecision l sl).2 = l.length := by
  by_cases h : (sl && decide (0 < l.length)) = true
  · have hlen : 0 < l.length := by
      have := (Bool.and_eq_true _ _).mp h
      exact of_decide_eq_true this.2
    have heq : workersDecision l sl = ((sortNewestFirst l).drop 1, 1) := by
      simp [workersDecision, h]
    rw [heq]
    simp only [List.length_drop, length_sortNewestFirst]
    omega
  · have heq : workersDecision l sl = (l, 0) := by
      simp only [workersDecision, if_neg ?_]
      simpa using h
    rw [heq]
    simp

lemma pages_empty_eq (l : List Deployment) (po : PagesOptions) (ok : Deployment → Bool)
    (h0 : l.length = 0) :
    pagesBulkDeleteDeployments l po ok = ⟨⟨0, 0, 0, none, false⟩, [], l⟩ := by
  simp [pagesBulkDeleteDeployments, h0]

lemma pages_dryRun_eq (l : List Deployment) (po : PagesOptions) (ok : Deployment → Bool)
    (h0 : ¬ l.length = 0) (hd : po.dryRun = true) :
    pagesBulkDeleteDeployments l po ok =
      ⟨⟨0, 0, (pagesDecision (sortNewestFirst l) po.skipProduction po.keepLatest).2,
          none, true⟩, [], l⟩ := by
  simp [pagesBulkDeleteDeployments, h0, hd]

lemma pages_nothingToDelete_eq (l : List Deployment) (po : PagesOptions) (ok : Deployment → Bool)
    (h0 : ¬ l.length = 0) (hd : po.dryRun = false)
    (he : (pagesDecision (sortNewestFirst l) po.skipProduction po.keepLatest).1.length = 0) :
    pagesBulkDeleteDeployments l po ok =
      ⟨⟨0, 0, (pagesDecision (sortNewestFirst l) po.skipProduction po.keepLatest).2,
          none, false⟩, [], l⟩ := by
  simp [pagesBulkDeleteDeployments, h0, hd, he]

lemma pages_main_eq (l : List Deployment) (po : PagesOptions) (ok : Deployment → Bool)
    (h0 : ¬ l.length = 0) (hd : po.dryRun = false)
    (he : ¬ (pagesDecision (sortNewestFirst l) po.skipProduction po.keepLatest).1.length = 0) :
    pagesBulkDeleteDeployments l po ok =
      ⟨⟨((pagesDecision (sortNewestFirst l) po.skipProduction po.keepLatest).1.filter ok).length,
          ((pagesDecision (sortNewestFirst l) po.skipProduction po.keepLatest).1.filter
            (fun d => !(ok d))).length,
          (pagesDecision (sortNewestFirst l) po.skipProduction po.keepLatest).2,
          some l.length, false⟩,
        (pagesDecision (sortNewestFirst l) po.skipProduction po.keepLatest).1, l⟩ := by
  simp [pagesBulkDeleteDeployments, h0, hd, he]

lemma workers_empty_eq (l : List Deployment) (wo : WorkersOptions) (ok : Deployment → Bool)
    (h0 : l.length = 0) :
    workersBulkDeleteDeployments l wo ok = ⟨⟨0, 0, 0, none, false⟩, [], l⟩ := by
  simp [workersBulkDeleteDeployments, h0]

lemma workers_dryRun_eq (l : List Deployment) (wo : WorkersOptions) (ok : Deployment → Bool)
    (h0 : ¬ l.length = 0) (hd : wo.dryRun = true) :
    workersBulkDeleteDeployments l wo ok =
      ⟨⟨0, 0, (workersDecision l wo.skipLatest).2, none, true⟩, [], l⟩ := by
  simp [workersBulkDeleteDeployments, h0, hd]

lemma workers_main_eq (l : List Deployment) (wo : WorkersOptions) (ok : Deployment → Bool)
    (h0 : ¬ l.length = 0) (hd : wo.dryRun = false) :
    workersBulkDeleteDeployments l wo ok =
      ⟨⟨((workersDecision l wo.skipLatest).1.filter ok).length,
          ((workersDecision l wo.skipLatest).1.filter (fun d => !(ok d))).length,
          (workersDecision l wo.skipLatest).2, some l.length, false⟩,
        (workersDecision l wo.skipLatest).1, l⟩ := by
  simp [workersBulkDeleteDeployments, h0, hd]

/-- On any non-empty input, the reported `skipped` count is the skipped
count of the filtering block, on every return path. -/
lemma pages_skipped_eq (l : List Deployment) (po : PagesOptions) (ok : Deployment → Bool)
    (h0 : ¬ l.length = 0) :
    (pagesBulkDeleteDeployments l po ok).result.skipped
      = (pagesDecision (sortNewestFirst l) po.skipProduction po.keepLatest).2 := by
  by_cases hd : po.dryRun = true
  · rw [pages_dryRun_eq l po ok h0 hd]
  · have hd' : po.dryRun = false := by simpa using hd
    by_cases he :
        (pagesDecision (sortNewestFirst l) po.skipProduction po.keepLatest).1.length = 0
    · rw [pages_nothingToDelete_eq l po ok h0 hd' he]
    · rw [pages_main_eq l po ok h0 hd' he]

/-! ### Claim theorems -/

/-- C1, counterexample.  The claim says latest-N protection applies
"regardless of whether skipProduction is enabled".  On the concrete input
`[sampleA]` with `skipProduction = false` and `keepLatest = 1`, the code
skips nothing (the whole filtering block is gated by `skipProduction`,
pages-client.js line 250) and deletes the single deployment, so the claimed
skipped count of `N = 1` is wrong. -/
theorem pages_keepLatest_ignored_without_skipProduction :
    (pagesBulkDeleteDeployments [sampleA]
        { skipProduction := false, dryRun := false, keepLatest := 1 } okAll).result.skipped = 0 ∧
    (pagesBulkDeleteDeployments [sampleA]
        { skipProduction := false, dryRun := false, keepLatest := 1 } okAll).result.skipped ≠ 1 ∧
    (pagesBulkDeleteDeployments [sampleA]
        { skipProduction := false, dryRun := false, keepLatest := 1 } okAll).calls = [sampleA] := by
  refine ⟨by decide, by decide, by decide⟩

/-- C1, amended: when `skipProduction` is enabled and `keepLatestCount`
(`keepLatest`) is positive, the Pages filtering block skips exactly the
first `min keepLatest |items|` items of the newest-first sort — regardless
of their environments — and selects the remaining tail for deletion; with
`skipProduction` disabled, `keepLatest` is ignored (see the
counterexample). -/
theorem pages_latest_protection_under_skipProduction (l : List Deployment) (kl : Int)
    (hkl : 0 < kl) :
    (pagesDecision (sortNewestFirst l) true kl).1 = (sortNewestFirst l).drop kl.toNat ∧
    (pagesDecision (sortNewestFirst l) true kl).2 = min kl.toNat l.length ∧
    (∀ po : PagesOptions, po.skipProduction = true → po.keepLatest = kl →
      ∀ ok : Deployment → Bool, ¬ l.length = 0 →
        (pagesBulkDeleteDeployments l po ok).result.skipped = min kl.toNat l.length) := by
  refine ⟨pagesDecision_fst_of_pos _ kl hkl, ?_, ?_⟩
  · rw [pagesDecision_snd_of_pos _ kl hkl, length_sortNewestFirst]
  · intro po hsp hkeq ok h0
    rw [pages_skipped_eq l po ok h0, hsp, hkeq, pagesDecision_snd_of_pos _ kl hkl,
      length_sortNewestFirst]

/-- C1, witness for the amended theorem at `l = [sampleA, sampleB]`,
`keepLatest = 1`: one item (the newest) is skipped, the older one is
selected. -/
theorem pages_latest_protection_witness :
    (pagesDecision (sortNewestFirst [sampleA, sampleB]) true 1).1
        = (sortNewestFirst [sampleA, sampleB]).drop (1 : Int).toNat ∧
    (pagesDecision (sortNewestFirst [sampleA, sampleB]) true 1).2
        = min (1 : Int).toNat [sampleA, sampleB].length :=
  ⟨(pages_latest_protection_under_skipProduction [sampleA, sampleB] 1 (by decide)).1,
    (pages_latest_protection_under_skipProduction [sampleA, sampleB] 1 (by decide)).2.1⟩

/-- C2, counterexample.  On an empty input list the Pages variant returns
`{success: 0, failed: 0, skipped: 0}` (pages-client.js line 238) with no
`total` field at all, so `succeeded + failed + skipped == total` does not
hold there (`0 ≠ undefined`). -/
theorem bulk_total_missing_on_empty_input :
    (pagesBulkDeleteDeployments [] {} okAll).result.success = 0 ∧
    (pagesBulkDeleteDeployments [] {} okAll).result.failed = 0 ∧
    (pagesBulkDeleteDeployments [] {} okAll).result.skipped = 0 ∧
    (pagesBulkDeleteDeployments [] {} okAll).result.total ≠ some 0 := by
  refine ⟨by decide, by decide, by decide, by decide⟩

/-- C2, amended: whenever a bulk-delete call (either variant) returns a
result that carries a `total` field — i.e. on the full execution path; the
early returns for empty input, dry run and an empty post-filter delete set
carry none — that total equals `succeeded + failed + skipped`. -/
theorem bulk_total_invariant (l : List Deployment) (po : PagesOptions) (wo : WorkersOptions)
    (ok : Deployment → Bool) (t u : Nat) :
    ((pagesBulkDeleteDeployments l po ok).result.total = some t →
      (pagesBulkDeleteDeployments l po ok).result.success
        + (pagesBulkDeleteDeployments l po ok).result.failed
        + (pagesBulkDeleteDeployments l po ok).result.skipped = t) ∧
    ((workersBulkDeleteDeployments l wo ok).result.total = some u →
      (workersBulkDeleteDeployments l wo ok).result.success
        + (workersBulkDeleteDeployments l wo ok).result.failed
        + (workersBulkDeleteDeployments l wo ok).result.skipped = u) := by
  constructor
  · intro h
    by_cases h0 : l.length = 0
    · rw [pages_empty_eq l po ok h0] at h
      exact absurd h (by simp)
    · by_cases hd : po.dryRun = true
      · rw [pages_dryRun_eq l po ok h0 hd] at h
        exact absurd h (by simp)
      · have hd' : po.dryRun = false := by simpa using hd
        by_cases he :
            (pagesDecision (sortNewestFirst l) po.skipProduction po.keepLatest).1.length = 0
        · rw [pages_nothingToDelete_eq l po ok h0 hd' he] at h
          exact absurd h (by simp)
        · rw [pages_main_eq l po ok h0 hd' he] at h ⊢
          have ht : l.length = t := by simpa using h
          have hpart := length_filter_add_length_filter_not ok
            (pagesDecision (sortNewestFirst l) po.skipProduction po.keepLatest).1
          have hsum := pagesDecision_sum (sortNewestFirst l) po.skipProduction po.keepLatest
          have hlen := length_sortNewestFirst l
          simp only [BulkResult.success, BulkResult.failed, BulkResult.skipped]
          omega
  · intro h
    by_cases h0 : l.length = 0
    · rw [workers_empty_eq l wo ok h0] at h
      exact absurd h (by simp)
    · by_cases hd : wo.dryRun = true
      · rw [workers_dryRun_eq l wo ok h0 hd] at h
        exact absurd h (by simp)
      · have hd' : wo.dryRun = false := by simpa using hd
        rw [workers_main_eq l wo ok h0 hd'] at h ⊢
        have hu : l.length = u := by simpa using h
        have hpart := length_filter_add_length_filter_not ok
          (workersDecision l wo.skipLatest).1
        have hsum := workersDecision_sum l wo.skipLatest
        simp only [BulkResult.success, BulkResult.failed, BulkResult.skipped]
        omega

/-- C2, witness for the amended theorem at `l = [sampleA, sampleB]` with
default options: both variants reach the full execution path with
`total = some 2`, and the counts sum to 2. -/
theorem bulk_total_invariant_witness :
    (pagesBulkDeleteDeployments [sampleA, sampleB] {} okAll).result.success
      + (pagesBulkDeleteDeployments [sampleA, sampleB] {} okAll).result.failed
      + (pagesBulkDeleteDeployments [sampleA, sampleB] {} okAll).result.skipped = 2 ∧
    (workersBulkDeleteDeployments [sampleA, sampleB] {} okAll).result.success
      + (workersBulkDeleteDeployments [sampleA, sampleB] {} okAll).result.failed
      + (workersBulkDeleteDeployments [sampleA, sampleB] {} okAll).result.skipped = 2 :=
  ⟨(bulk_total_invariant [sampleA, sampleB] {} {} okAll 2 2).1 (by decide),
    (bulk_total_invariant [sampleA, sampleB] {} {} okAll 2 2).2 (by decide)⟩

/-- C3: with `dryRun = true`, neither variant ever invokes the per-item
`deleteDeployment`, and the returned result has `succeeded = 0` and
`failed = 0`, for every input list and oracle. -/
theorem bulk_dryRun_never_invokes_delete (l : List Deployment) (po : PagesOptions)
    (wo : WorkersOptions) (ok : Deployment → Bool)
    (hp : po.dryRun = true) (hw : wo.dryRun = true) :
    ((pagesBulkDeleteDeployments l po ok).calls = [] ∧
      (pagesBulkDeleteDeployments l po ok).result.success = 0 ∧
      (pagesBulkDeleteDeployments l po ok).result.failed = 0) ∧
    ((workersBulkDeleteDeployments l wo ok).calls = [] ∧
      (workersBulkDeleteDeployments l wo ok).result.success = 0 ∧
      (workersBulkDeleteDeployments l wo ok).result.failed = 0) := by
  constructor
  · by_cases h0 : l.length = 0
    · rw [pages_empty_eq l po ok h0]
      exact ⟨rfl, rfl, rfl⟩
    · rw [pages_dryRun_eq l po ok h0 hp]
      exact ⟨rfl, rfl, rfl⟩
  · by_cases h0 : l.length = 0
    · rw [workers_empty_eq l wo ok h0]
      exact ⟨rfl, rfl, rfl⟩
    · rw [workers_dryRun_eq l wo ok h0 hw]
      exact ⟨rfl, rfl, rfl⟩

/-- C3, witness at `l = [sampleA, sampleB]`, `dryRun = true` for both
variants. -/
theorem bulk_dryRun_never_invokes_delete_witness :
    (pagesBulkDeleteDeployments [sampleA, sampleB] { dryRun := true } okAll).calls = [] ∧
    (workersBulkDeleteDeployments [sampleA, sampleB] { dryRun := true } okAll).calls = [] :=
  ⟨(bulk_dryRun_never_invokes_delete [sampleA, sampleB] { dryRun := true } { dryRun := true }
      okAll rfl rfl).1.1,
    (bulk_dryRun_never_invokes_delete [sampleA, sampleB] { dryRun := true } { dryRun := true }
      okAll rfl rfl).2.1⟩

/-- C4: in a non-dry-run execution whose delete set is non-empty, every
item of the delete set is attempted (`calls` is exactly the filtering
block's delete set; a per-item failure never aborts the loop,
pages-client.js lines 319-328 / workers-client.js lines 305-314), and with
`k` the number of failing items out of `n` attempted, the result is
`succeeded = n - k`, `failed = k`, `total = n + skipped`. -/
theorem bulk_partial_failure_accounting (l : List Deployment) (po : PagesOptions)
    (wo : WorkersOptions) (ok : Deployment → Bool)
    (hp : po.dryRun = false) (hw : wo.dryRun = false) :
    ((pagesBulkDeleteDeployments l po ok).calls ≠ [] →
      (pagesBulkDeleteDeployments l po ok).calls
          = (pagesDecision (sortNewestFirst l) po.skipProduction po.keepLatest).1 ∧
      (pagesBulkDeleteDeployments l po ok).result.success
          = (pagesBulkDeleteDeployments l po ok).calls.length
            - ((pagesBulkDeleteDeployments l po ok).calls.filter (fun d => !(ok d))).length ∧
      (pagesBulkDeleteDeployments l po ok).result.failed
          = ((pagesBulkDeleteDeployments l po ok).calls.filter (fun d => !(ok d))).length ∧
      (pagesBulkDeleteDeployments l po ok).result.total
          = some ((pagesBulkDeleteDeployments l po ok).calls.length
              + (pagesBulkDeleteDeployments l po ok).result.skipped)) ∧
    ((workersBulkDeleteDeployments l wo ok).calls ≠ [] →
      (workersBulkDeleteDeployments l wo ok).calls = (workersDecision l wo.skipLatest).1 ∧
      (workersBulkDeleteDeployments l wo ok).result.success
          = (workersBulkDeleteDeployments l wo ok).calls.length
            - ((workersBulkDeleteDeployments l wo ok).calls.filter (fun d => !(ok d))).length ∧
      (workersBulkDeleteDeployments l wo ok).result.failed
          = ((workersBulkDeleteDeployments l wo ok).calls.filter (fun d => !(ok d))).length ∧
      (workersBulkDeleteDeployments l wo ok).result.total
          = some ((workersBulkDeleteDeployments l wo ok).calls.length
              + (workersBulkDeleteDeployments l wo ok).result.skipped)) := by
  constructor
  · intro hne
    by_cases h0 : l.length = 0
    · rw [pages_empty_eq l po ok h0] at hne
      exact absurd rfl hne
    · by_cases he :
          (pagesDecision (sortNewestFirst l) po.skipProduction po.keepLatest).1.length = 0
      · rw [pages_nothingToDelete_eq l po ok h0 hp he] at hne
        exact absurd rfl hne
      · rw [pages_main_eq l po ok h0 hp he]
        have hpart := length_filter_add_length_filter_not ok
          (pagesDecision (sortNewestFirst l) po.skipProduction po.keepLatest).1
        have hsum := pagesDecision_sum (sortNewestFirst l) po.skipProduction po.keepLatest
        have hlen := length_sortNewestFirst l
        dsimp only
        refine ⟨rfl, by omega, rfl, ?_⟩
        simp only [Option.some.injEq]
        omega
  · intro hne
    by_cases h0 : l.length = 0
    · rw [workers_empty_eq l wo ok h0] at hne
      exact absurd rfl hne
    · rw [workers_main_eq l wo ok h0 hw]
      have hpart := length_filter_add_length_filter_not ok (workersDecision l wo.skipLatest).1
      have hsum := workersDecision_sum l wo.skipLatest
      dsimp only
      refine ⟨rfl, by omega, rfl, ?_⟩
      simp only [Option.some.injEq]
      omega

/-- C4, witness at `l = [sampleA, sampleB]`, default options,
oracle `okOnly0` failing on `sampleB`: the single attempted item `sampleA`
succeeds, so `succeeded = 1 - 0 = 1`, `failed = 0`, `total = 1 + skipped`. -/
theorem bulk_partial_failure_accounting_witness :
    (pagesBulkDeleteDeployments [sampleA, sampleB] {} okOnly0).result.success
        = (pagesBulkDeleteDeployments [sampleA, sampleB] {} okOnly0).calls.length
          - ((pagesBulkDeleteDeployments [sampleA, sampleB] {} okOnly0).calls.filter
              (fun d => !(okOnly0 d))).length ∧
    (workersBulkDeleteDeployments [sampleA, sampleB] {} okOnly0).result.total
        = some ((workersBulkDeleteDeployments [sampleA, sampleB] {} okOnly0).calls.length
            + (workersBulkDeleteDeployments [sampleA, sampleB] {} okOnly0).result.skipped) :=
  ⟨((bulk_partial_failure_accounting [sampleA, sampleB] {} {} okOnly0 rfl rfl).1
      (by decide)).2.1,
    ((bulk_partial_failure_accounting [sampleA, sampleB] {} {} okOnly0 rfl rfl).2
      (by decide)).2.2.2⟩

/-- C5, counterexample.  The dry-run return
`{success: 0, failed: 0, skipped, dryRun: true}` (pages-client.js line 302)
carries no `total` field: on `[sampleA]` with default policy the dry run
skips the one (latest) item and selects none, so the claim would require
`total = 0 + 1 = 1`, but the result has no total. -/
theorem pages_dryRun_total_missing :
    (pagesBulkDeleteDeployments [sampleA] { dryRun := true } okAll).result.skipped = 1 ∧
    (pagesBulkDeleteDeployments [sampleA] { dryRun := true } okAll).result.total ≠ some 1 := by
  refine ⟨by decide, by decide⟩

/-- C5, amended: on a non-empty input with `dryRun = true`, both variants
return exactly `succeeded = 0`, `failed = 0`, `skipped` equal to the
filtering block's skipped count, the flag `dryRun = true`, and **no**
`total` field (on an empty input the early return also lacks the `dryRun`
flag). -/
theorem bulk_dryRun_result_shape (l : List Deployment) (po : PagesOptions)
    (wo : WorkersOptions) (ok : Deployment → Bool)
    (hl : ¬ l.length = 0) (hp : po.dryRun = true) (hw : wo.dryRun = true) :
    (pagesBulkDeleteDeployments l po ok).result
        = ⟨0, 0, (pagesDecision (sortNewestFirst l) po.skipProduction po.keepLatest).2,
            none, true⟩ ∧
    (workersBulkDeleteDeployments l wo ok).result
        = ⟨0, 0, (workersDecision l wo.skipLatest).2, none, true⟩ := by
  exact ⟨by rw [pages_dryRun_eq l po ok hl hp], by rw [workers_dryRun_eq l wo ok hl hw]⟩

/-- C5, witness at `l = [sampleA, sampleB]`, `dryRun = true`. -/
theorem bulk_dryRun_result_shape_witness :
    (pagesBulkDeleteDeployments [sampleA, sampleB] { dryRun := true } okAll).result
        = ⟨0, 0, (pagesDecision (sortNewestFirst [sampleA, sampleB]) true 1).2, none, true⟩ ∧
    (workersBulkDeleteDeployments [sampleA, sampleB] { dryRun := true } okAll).result
        = ⟨0, 0, (workersDecision [sampleA, sampleB] true).2, none, true⟩ :=
  bulk_dryRun_result_shape [sampleA, sampleB] { dryRun := true } { dryRun := true } okAll
    (by decide) rfl rfl

/-- C6, counterexample.  The deletion loop awaits each deletion before
submitting the next: for the two-item delete set the trace is
`submit 0, complete 0, submit 1, complete 1`, so after two events only one
submission has happened — under the claimed fan-out both submissions would
precede the first completion. -/
theorem exec_trace_not_fan_out :
    execTrace [⟨0, 0, none⟩, ⟨1, 1, none⟩]
        = [ExecEvent.submit 0, ExecEvent.complete 0, ExecEvent.submit 1,
            ExecEvent.complete 1] ∧
    countSubmits ((execTrace [⟨0, 0, none⟩, ⟨1, 1, none⟩]).take 2) ≠ 2 := by
  refine ⟨by decide, by decide⟩

/-- C6, amended: the batch executor is strictly sequential — in every
prefix of the execution trace the number of submitted deletions exceeds the
number of completed ones by at most one, i.e. at most one deletion is ever
in flight, and the dispatcher's concurrency bound of 5 is never exercised
by the loop. -/
theorem exec_trace_at_most_one_in_flight (l : List Deployment) (n : Nat) :
    countSubmits ((execTrace l).take n) ≤ countCompletes ((execTrace l).take n) + 1 := by
  induction l generalizing n with
  | nil => simp [execTrace, countSubmits, countCompletes]
  | cons d rest ih =>
      match n with
      | 0 => simp [countSubmits, countCompletes]
      | 1 => simp [execTrace, countSubmits, countCompletes]
      | (m + 2) =>
          have h := ih m
          simp only [execTrace, List.take_succ_cons, countSubmits, countCompletes] at h ⊢
          omega

/-- C7, counterexample.  The Workers adapter falls back to the versions
endpoint on **any** error thrown by the deployments request — here a plain
transport error — not only on a well-defined "not supported" class; indeed
no `UnsupportedOperationError` exists anywhere in the code. -/
theorem workers_fallback_on_any_error :
    workersDeleteDeployment (Except.error "transport") (Except.ok true)
        = (Except.ok true, true) ∧
    "transport" ≠ "UnsupportedOperationError" := by
  refine ⟨rfl, by decide⟩

/-- C7, amended: the adapter attempts the deployments path first and falls
back to the versions path exactly when the first request throws (whatever
the error); the fallback itself is not surfaced — a success on either path
returns success — and only the fallback's own failure propagates. -/
theorem workers_fallback_iff_primary_throws (p f : Except String Bool) :
    ((workersDeleteDeployment p f).2 = true ↔ ∃ e, p = Except.error e) ∧
    (workersDeleteDeployment (Except.ok true) f = (Except.ok true, false)) ∧
    (∀ e, (workersDeleteDeployment (Except.error e) (Except.ok true)).1
        = Except.ok true) := by
  refine ⟨?_, by cases f <;> rfl, fun e => rfl⟩
  cases p with
  | ok s =>
      cases s <;> simp [workersDeleteDeployment]
  | error e =>
      cases f with
      | ok s => cases s <;> simp [workersDeleteDeployment]
      | error e2 => simp [workersDeleteDeployment]

/-- C7, witness at a concrete primary/fallback pair. -/
theorem workers_fallback_iff_primary_throws_witness :
    workersDeleteDeployment (Except.ok true) (Except.error "x")
        = (Except.ok true, false) :=
  (workers_fallback_iff_primary_throws (Except.ok true) (Except.error "x")).2.1

/-- C8, counterexample.  No `PolicyViolationError` exists in the code and
`keepLatest` is never validated: with `keepLatest = -1` and
`skipProduction = true` on `[sampleA, sampleP]`, the call does not fail —
it silently takes the environment-based branch, skips the production item,
attempts (and completes) the deletion of the preview item, and returns
normally. -/
theorem pages_negative_keepLatest_no_error :
    (pagesBulkDeleteDeployments [sampleA, sampleP]
        { skipProduction := true, dryRun := false, keepLatest := -1 } okAll).calls
        = [sampleA] ∧
    (pagesBulkDeleteDeployments [sampleA, sampleP]
        { skipProduction := true, dryRun := false, keepLatest := -1 } okAll).result
        = ⟨1, 0, 1, some 2, false⟩ := by
  refine ⟨by decide, by decide⟩

/-- C8, amended: a non-positive `keepLatest` is not rejected; with
`skipProduction` enabled the filtering block falls back to skipping
production-environment items (pages-client.js lines 267-281), the reported
`skipped` is the number of production items, and execution proceeds with no
error. -/
theorem pages_negative_keepLatest_behavior (l : List Deployment) (kl : Int) (hkl : kl ≤ 0) :
    pagesDecision (sortNewestFirst l) true kl
        = ((sortNewestFirst l).filter (fun d => !(decide (d.environment = some "production"))),
            ((sortNewestFirst l).filter
              (fun d => decide (d.environment = some "production"))).length) ∧
    (∀ po : PagesOptions, po.skipProduction = true → po.keepLatest = kl →
      ∀ ok : Deployment → Bool, ¬ l.length = 0 →
        (pagesBulkDeleteDeployments l po ok).result.skipped
          = ((sortNewestFirst l).filter
              (fun d => decide (d.environment = some "production"))).length) := by
  have hkl' : ¬ kl > 0 := by omega
  refine ⟨pagesDecision_nonpos_eq _ kl hkl', ?_⟩
  intro po hsp hkeq ok h0
  rw [pages_skipped_eq l po ok h0, hsp, hkeq, pagesDecision_nonpos_eq _ kl hkl']

/-- C8, witness at `l = [sampleA, sampleP]`, `keepLatest = -1`. -/
theorem pages_negative_keepLatest_behavior_witness :
    pagesDecision (sortNewestFirst [sampleA, sampleP]) true (-1)
        = ((sortNewestFirst [sampleA, sampleP]).filter
              (fun d => !(decide (d.environment = some "production"))),
            ((sortNewestFirst [sampleA, sampleP]).filter
              (fun d => decide (d.environment = some "production"))).length) :=
  (pages_negative_keepLatest_behavior [sampleA, sampleP] (-1) (by decide)).1

/-- C9, counterexample.  With 2 items processed after 1000 ms, the code
reports `rate = 2 / (1000/1000) = 2` items per second
(logger.js line 105), not "elapsed divided by processed", which would be
`1000 / 2 = 500` (or `0.5` reading elapsed in seconds). -/
theorem progress_rate_not_elapsed_over_processed :
    progressRate 2 1000 = 2 ∧
    (1000 : ℚ) / 2 ≠ progressRate 2 1000 ∧
    (1 : ℚ) / 2 ≠ progressRate 2 1000 := by
  refine ⟨by norm_num [progressRate], by norm_num [progressRate], by norm_num [progressRate]⟩

/-- C9, amended: `rate` is items processed divided by elapsed wall-clock
seconds (so `rate * elapsedSeconds = processed`), and the ETA (in seconds,
from `increment`) is `(total - processed) / rate` while `processed < total`
and `0` once `processed = total` (not undefined). -/
theorem progress_rate_and_eta (c t e : ℚ) (_hc : 0 < c) (he : 0 < e) :
    progressRate c e * (e / 1000) = c ∧
    (c < t → progressEta c t e = (t - c) / progressRate c e) ∧
    (t ≤ c → progressEta c t e = 0) := by
  refine ⟨?_, ?_, ?_⟩
  · rw [progressRate]
    have h1000 : (e / 1000 : ℚ) ≠ 0 := by positivity
    field_simp
  · intro hlt
    rw [progressEta, if_pos hlt]
  · intro hge
    rw [progressEta, if_neg (not_lt.mpr hge)]

/-- C9, witness at `processed = 2`, `total = 4`, `elapsed = 1000 ms`. -/
theorem progress_rate_and_eta_witness :
    progressRate 2 1000 * ((1000 : ℚ) / 1000) = 2 ∧
    progressEta 2 4 1000 = ((4 : ℚ) - 2) / progressRate 2 1000 :=
  ⟨(progress_rate_and_eta 2 4 1000 (by norm_num) (by norm_num)).1,
    (progress_rate_and_eta 2 4 1000 (by norm_num) (by norm_num)).2.1 (by norm_num)⟩

/-- C10: neither variant mutates the caller's input array: both sort a
shallow copy `[...deployments]`, so after the call the caller's array holds
the same elements in the same order, on every return path. -/
theorem bulk_preserves_input_array (l : List Deployment) (po : PagesOptions)
    (wo : WorkersOptions) (ok : Deployment → Bool) :
    (pagesBulkDeleteDeployments l po ok).inputAfter = l ∧
    (workersBulkDeleteDeployments l wo ok).inputAfter = l := by
  constructor
  · by_cases h0 : l.length = 0
    · rw [pages_empty_eq l po ok h0]
    · by_cases hd : po.dryRun = true
      · rw [pages_dryRun_eq l po ok h0 hd]
      · have hd' : po.dryRun = false := by simpa using hd
        by_cases he :
            (pagesDecision (sortNewestFirst l) po.skipProduction po.keepLatest).1.length = 0
        · rw [pages_nothingToDelete_eq l po ok h0 hd' he]
        · rw [pages_main_eq l po ok h0 hd' he]
  · by_cases h0 : l.length = 0
    · rw [workers_empty_eq l wo ok h0]
    · by_cases hd : wo.dryRun = true
      · rw [workers_dryRun_eq l wo ok h0 hd]
      · have hd' : wo.dryRun = false := by simpa using hd
        rw [workers_main_eq l wo ok h0 hd']

end CFBD
